import Mathlib

/-!
Verification of the Bluetooth A2DP connected-peer registry
(`src/connectivity/bluetooth/lib/bt-a2dp/src/connected_peers.rs`).

The registry (`ConnectedPeers`) is embedded shallowly from the Rust source.
Its collaborators (`DetachableMap`/`DetachableWeak` from `fuchsia-bluetooth`,
`Peer`, `CodecNegotiation`, `Streams` from sibling modules) are not part of
the sources available here, so they are modelled from the specification's
interface contracts (spec sections 3, 4.1-4.3 and 9), as noted on each
definition.  Asynchrony (the detach-on-close task and the initiator-side
streaming task spawned by `connected`) is embedded as explicit pending-task
data plus a step relation (`stepOp`) that runs registry operations and
background tasks one at a time, matching the single-logical-owner
cooperative-tasking model of spec section 5.  Logging and the inspect tree
are observability side channels and are omitted, per spec section 1.
-/

/-- Opaque unique identifier for a remote device (spec section 3). -/
abbrev PeerId := Nat

/-- An opaque bidirectional transport channel handle (spec section 1:
transport establishment is out of scope, the channel is opaque). -/
abbrev Chan := Nat

/-- Modelled from the spec: ProfileDescriptor is "(profile identifier, major
version, minor version)" (spec section 3); the FIDL type itself is not in
the available sources. -/
structure ProfileDescriptor where
  profileId : Nat
  majorVersion : Nat
  minorVersion : Nat
deriving DecidableEq, Repr

/-- Modelled from the spec: endpoint direction, source or sink
(spec section 3, `avdtp::EndpointType` is not in the available sources). -/
inductive EndpointType where
  | source
  | sink
deriving DecidableEq, Repr

/-- The complementary direction: a local sink pairs with a remote source and
vice versa (spec section 4.1: "filter remote endpoints to those whose
direction is complementary to the configured local direction"). -/
def EndpointType.opposite : EndpointType → EndpointType
  | .source => .sink
  | .sink => .source

/-- Modelled from the spec: a codec capability, "a set of supported codec
capabilities" with "same codec family and parameter ranges" compatibility
(spec sections 3 and 4.1); the `ServiceCapability` type is not in the
available sources.  The codec family is a tag and the parameter range is a
set of admissible parameter values. -/
structure Capability where
  family : Nat
  params : List Nat
deriving DecidableEq, Repr

/-- Modelled from the spec: capability compatibility means the same codec
family and overlapping parameter ranges (spec section 4.1). -/
def Capability.compatibleWith (a b : Capability) : Bool :=
  a.family == b.family && a.params.any (fun p => b.params.contains p)

/-- Modelled from the spec: a remote stream endpoint learned via capability
discovery: an identifier, a direction, and a capability set
(spec section 3, RemoteStreamEndpoint). -/
structure RemoteEndpoint where
  seid : Nat
  direction : EndpointType
  capabilities : List Capability
deriving DecidableEq, Repr

/-- Modelled from the spec: CodecNegotiation holds the ordered preference
list of local codec configurations (most preferred first) and the configured
target direction (spec section 4.1); `codec.rs` is not in the available
sources. -/
structure CodecNegotiation where
  preferred : List Capability
  direction : EndpointType
deriving DecidableEq, Repr

/-- Modelled from the spec: the configured direction can be changed at
runtime (spec section 4.1). -/
def CodecNegotiation.set_direction (n : CodecNegotiation) (d : EndpointType) :
    CodecNegotiation :=
  { n with direction := d }

/-- Modelled from the spec: the negotiation algorithm of spec section 4.1:
filter remote endpoints to those whose direction is complementary to the
configured direction; for each local configuration in preference order, test
each remaining remote endpoint for compatibility; return the first matching
(local configuration, remote endpoint id) pair, or nothing. -/
def CodecNegotiation.select (n : CodecNegotiation)
    (remotes : List RemoteEndpoint) : Option (Capability × Nat) :=
  let candidates := remotes.filter (fun r => r.direction == n.direction.opposite)
  n.preferred.findSome? (fun cap =>
    (candidates.find? (fun r => r.capabilities.any (fun c => cap.compatibleWith c))).map
      (fun r => (cap, r.seid)))

/-- Modelled from the spec: the Stream Registry holds the canonical set of
locally supported stream endpoints (spec section 4.2); `stream.rs` is not in
the available sources.  Only its role as a cloneable template matters to the
registry. -/
structure Streams where
  endpoints : List Capability
deriving DecidableEq, Repr

/-- Modelled from the spec: `as_new()` returns a deep, independent clone of
the configured endpoint set (spec section 4.2); in this value-semantics
embedding a copy is automatically independent. -/
def Streams.as_new (s : Streams) : Streams :=
  { endpoints := s.endpoints }

/-- Failure conditions of Peer session operations (spec section 4.3:
`receive_channel` "fails if the session is not in a state that accepts a new
channel", and "any operation on a session whose transport has already closed
fails immediately with a 'disconnected' condition"). -/
inductive PeerError where
  | disconnected
  | badState
deriving DecidableEq, Repr

/-- Modelled from the spec: the Peer wraps one remote device's protocol
session (spec sections 3 and 4.3); `peer.rs` is not in the available
sources.  `channels` is the list of attached transport channels, `closed`
records whether the underlying transport has fully disconnected (the
`closed()` future has resolved), and `acceptsChannel` is the
environment-chosen session-state fact of whether the session currently
accepts an additional channel. -/
structure Peer where
  peerId : PeerId
  channels : List Chan
  descriptor : Option ProfileDescriptor
  local_streams : Streams
  closed : Bool
  acceptsChannel : Bool
deriving DecidableEq, Repr

/-- Modelled from the spec: `receive_channel(channel)` attaches an
additional transport channel to an existing session; it fails if the session
is not in a state that accepts a new channel, and fails immediately with a
disconnected condition if the transport has already closed
(spec section 4.3).  On failure the session is untouched. -/
def Peer.receive_channel (p : Peer) (c : Chan) : Except PeerError Peer :=
  if p.closed then .error .disconnected
  else if p.acceptsChannel then .ok { p with channels := p.channels ++ [c] }
  else .error .badState

/-- Modelled from the spec: `set_descriptor(desc)` attaches known profile
metadata to the peer record; never fails (spec section 4.3). -/
def Peer.set_descriptor (p : Peer) (d : ProfileDescriptor) : Peer :=
  { p with descriptor := some d }

/-- Modelled from the spec: constructing a new Peer bound to one channel and
a fresh clone of the stream template (spec section 4.4 step 2; the Rust
`Peer::create` is not in the available sources).  A freshly accepted
session's transport is not yet closed.  `accepts` is the environment's
choice of whether this session will accept an additional channel. -/
def Peer.create (id : PeerId) (c : Chan) (streams : Streams)
    (accepts : Bool) : Peer :=
  { peerId := id
    channels := [c]
    descriptor := none
    local_streams := streams.as_new
    closed := false
    acceptsChannel := accepts }

/-- Modelled from the spec: a weak, revocable handle into the detachable
map, embedded as an (id, generation) pair checked against the current entry
on every upgrade attempt (spec section 9, "weak handle = (id, generation)
pair checked against current liveness on every upgrade attempt"). -/
structure Handle where
  id : PeerId
  gen : Nat
deriving DecidableEq, Repr

/-- An entry of the detachable map: the installed Peer together with the
generation stamped at installation time. -/
structure Entry where
  gen : Nat
  peer : Peer
deriving DecidableEq, Repr

/-- The map from peer identity to live entry (the Rust `DetachableMap`,
modelled from spec section 9 as an association list of slots). -/
abbrev PeerMap := List (PeerId × Entry)

/-- Look up the live entry for an id. -/
def PeerMap.lookupEntry (m : PeerMap) (id : PeerId) : Option Entry :=
  (m.find? (fun kv => kv.1 == id)).map (fun kv => kv.2)

/-- Replace the Peer stored for `id`, keeping the entry's generation
(the merge path mutates the Peer through the existing entry). -/
def PeerMap.updatePeer (m : PeerMap) (id : PeerId) (p : Peer) : PeerMap :=
  m.map (fun kv => if kv.1 == id then (kv.1, { gen := kv.2.gen, peer := p }) else kv)

/-- Modelled from the spec: `DetachableWeak::detach` removes the entry only
if it is still the very entry the handle refers to — detach "must be
race-safe against the entry having already been replaced by a later
reconnect" (spec section 4.4 step 4), so removal is keyed on both id and
generation. -/
def PeerMap.detachEntry (m : PeerMap) (h : Handle) : PeerMap :=
  m.filter (fun kv => !(kv.1 == h.id && kv.2.gen == h.gen))

/-- A listener obtained from `connected_stream()`: a zero-capacity mpsc
sender (connected_peers.rs line 197, `mpsc::channel(0)`).  `alive` records
whether the receiving side still exists; `slot` is the sender's one
guaranteed slot, holding a delivery the receiver has not yet consumed;
`received` is the history the receiver has consumed, in delivery order. -/
structure Sender where
  alive : Bool
  slot : Option Handle
  received : List Handle
deriving DecidableEq, Repr

/-- The `try_send` of a zero-capacity mpsc sender: it fails when the
receiver is gone, and also when the guaranteed slot is still occupied
because the listener has not consumed the previous delivery (spec
section 4.5: "a full buffer simply means the receiver hasn't asked yet — a
failed push is pruning evidence").  On success the handle occupies the
slot. -/
def Sender.trySend (s : Sender) (h : Handle) : Option Sender :=
  if s.alive then
    match s.slot with
    | some _ => none
    | none => some { s with slot := some h }
  else none

/-- A pending background task spawned by `connected`: either the
detach-on-close waiter (connected_peers.rs lines 172-176) or the
initiator-side streaming task (lines 159-169), which captured its own copy
of the codec negotiation at spawn time. -/
inductive PendingTask where
  | detachOnClose (h : Handle)
  | startStream (h : Handle) (negotiation : CodecNegotiation)
deriving DecidableEq, Repr

/-- The registry state: the peer map with its generation counter, the
profile-descriptor cache, the stream template, the codec negotiation policy,
the listener senders, and the spawned-but-not-yet-run background tasks.
Mirrors the fields of `ConnectedPeers` (connected_peers.rs lines 30-49);
the profile proxy, cobalt sender and inspect nodes are opaque side channels
and are omitted. -/
structure ConnectedPeers where
  connected_map : PeerMap
  nextGen : Nat
  descriptors : List (PeerId × ProfileDescriptor)
  streams : Streams
  codec_negotiation : CodecNegotiation
  connected_peer_senders : List Sender
  tasks : List PendingTask
deriving DecidableEq, Repr

/-- `ConnectedPeers::get_weak` (connected_peers.rs lines 71-73). -/
def ConnectedPeers.get_weak (s : ConnectedPeers) (id : PeerId) : Option Handle :=
  (s.connected_map.lookupEntry id).map (fun e => { id := id, gen := e.gen })

/-- Upgrading a weak handle: succeeds with the stored Peer exactly when the
entry for the handle's id is still the same generation (spec section 9). -/
def ConnectedPeers.upgrade (s : ConnectedPeers) (h : Handle) : Option Peer :=
  match s.connected_map.lookupEntry h.id with
  | some e => if e.gen == h.gen then some e.peer else none
  | none => none

/-- `ConnectedPeers::get` (connected_peers.rs lines 75-77). -/
def ConnectedPeers.get (s : ConnectedPeers) (id : PeerId) : Option Peer :=
  (s.get_weak id).bind (fun h => s.upgrade h)

/-- `ConnectedPeers::is_connected` (connected_peers.rs lines 79-81). -/
def ConnectedPeers.is_connected (s : ConnectedPeers) (id : PeerId) : Bool :=
  (s.connected_map.lookupEntry id).isSome

/-- Insert or overwrite the cached descriptor for an id
(`self.descriptors.insert(id, desc)`; the new binding shadows any older
one, matching HashMap insert as observed through lookup). -/
def insertDescriptor (l : List (PeerId × ProfileDescriptor)) (id : PeerId)
    (d : ProfileDescriptor) : List (PeerId × ProfileDescriptor) :=
  (id, d) :: l

/-- Look up the cached descriptor for an id. -/
def lookupDescriptor (l : List (PeerId × ProfileDescriptor)) (id : PeerId) :
    Option ProfileDescriptor :=
  (l.find? (fun kv => kv.1 == id)).map (fun kv => kv.2)

/-- `ConnectedPeers::found` (connected_peers.rs lines 97-100): record the
descriptor in the cache, then, if a live peer exists for the id, apply the
descriptor to it immediately. -/
def ConnectedPeers.found (s : ConnectedPeers) (id : PeerId)
    (desc : ProfileDescriptor) : ConnectedPeers :=
  let s := { s with descriptors := insertDescriptor s.descriptors id desc }
  match s.get id with
  | some p => { s with connected_map := s.connected_map.updatePeer id (p.set_descriptor desc) }
  | none => s

/-- `ConnectedPeers::set_preferred_direction` (connected_peers.rs
lines 102-105); the inspect string write is an omitted side channel. -/
def ConnectedPeers.set_preferred_direction (s : ConnectedPeers)
    (d : EndpointType) : ConnectedPeers :=
  { s with codec_negotiation := s.codec_negotiation.set_direction d }

/-- `ConnectedPeers::preferred_direction` (connected_peers.rs
lines 107-109). -/
def ConnectedPeers.preferred_direction (s : ConnectedPeers) : EndpointType :=
  s.codec_negotiation.direction

/-- One step of the `notify_connected` loop (connected_peers.rs
lines 185-192): `while i != len { if try_send fails { swap_remove(i) } else
{ i += 1 } }`.  `swapRemove` mirrors `Vec::swap_remove`: replace position
`i` with the last element and pop the last. -/
def swapRemove (l : List Sender) (i : Nat) : List Sender :=
  match l.getLast? with
  | none => []
  | some last => (l.set i last).dropLast

/-- The `notify_connected` pruning loop, with explicit fuel (the loop
terminates because every iteration either advances `i` or shortens the
list; `fuel = l.length - i` suffices). -/
def notifyLoop : Nat → List Sender → Nat → Handle → List Sender
  | 0, l, _, _ => l
  | fuel + 1, l, i, h =>
    if hlt : i < l.length then
      match (l.get ⟨i, hlt⟩).trySend h with
      | some snd => notifyLoop fuel (l.set i snd) (i + 1) h
      | none => notifyLoop fuel (swapRemove l i) i h
    else l

/-- `ConnectedPeers::notify_connected` (connected_peers.rs lines 184-193):
push the handle to every sender, pruning senders whose receiver is gone. -/
def ConnectedPeers.notify_connected (s : ConnectedPeers) (h : Handle) :
    ConnectedPeers :=
  { s with connected_peer_senders :=
      notifyLoop s.connected_peer_senders.length s.connected_peer_senders 0 h }

/-- `ConnectedPeers::connected_stream` (connected_peers.rs lines 196-200):
create a fresh zero-capacity channel and register its sender. -/
def ConnectedPeers.connected_stream (s : ConnectedPeers) : ConnectedPeers :=
  { s with connected_peer_senders :=
      s.connected_peer_senders
        ++ [{ alive := true, slot := none, received := [] }] }

/-- The errors `connected` can return (connected_peers.rs lines 114-181):
a channel-attach failure propagated from `receive_channel` (line 124), the
"Disconnected connecting transport" upgrade failure (line 121), and the
"Peer missing" lookup failures (lines 154 and 178). -/
inductive ConnectError where
  | channelAttach (e : PeerError)
  | disconnectedTransport
  | peerMissing
deriving DecidableEq, Repr

/-- Lines 129-148 of connected_peers.rs: construct the new Peer bound to
the accepted channel and a fresh clone of the stream template, and apply a
cached descriptor if one exists (the inspect attach of lines 146-148 is a
non-fatal omitted side channel).  `accepts` is the environment's choice for
the new session's channel-acceptance state. -/
def ConnectedPeers.mkNewPeer (s : ConnectedPeers) (id : PeerId) (ch : Chan)
    (accepts : Bool) : Peer :=
  let peer := Peer.create id ch s.streams.as_new accepts
  match lookupDescriptor s.descriptors id with
  | some desc => peer.set_descriptor desc
  | none => peer

/-- `DetachableMap` reserve-then-insert (connected_peers.rs lines 129 and
151, modelled from spec sections 4.4 step 2 and 5: "atomic
reserve-then-insert", "exactly one creation wins per id at a time"):
`try_insert` fails, handing the constructed Peer back, when an entry for
the id already exists; otherwise it installs the entry under a fresh
generation and returns its weak handle. -/
def ConnectedPeers.tryInsert (s : ConnectedPeers) (id : PeerId) (p : Peer) :
    Except Peer (Handle × ConnectedPeers) :=
  match s.connected_map.lookupEntry id with
  | some _ => .error p
  | none =>
    .ok ({ id := id, gen := s.nextGen },
      { s with
        connected_map := (id, { gen := s.nextGen, peer := p }) :: s.connected_map
        nextGen := s.nextGen + 1 })

/-- Lines 150-180 of connected_peers.rs, from `entry.try_insert(peer)` to
the end of `connected`: install the entry (falling back to the winning
entry's weak handle when the insert loses a creation race, line 154); on
success spawn the initiator streaming task (lines 159-169) and the
detach-on-close task (lines 172-176), re-fetch the weak handle (line 178)
and fan it out to the listeners (line 179). -/
def ConnectedPeers.finishInstall (s : ConnectedPeers) (id : PeerId)
    (initiator : Bool) (peer : Peer) :
    Except ConnectError Handle × ConnectedPeers :=
  match s.tryInsert id peer with
  | .error _discarded =>
    match s.get_weak id with
    | none => (.error .peerMissing, s)
    | some w => (.ok w, s)
  | .ok (w, s1) =>
    let s3 := { s1 with tasks :=
      s1.tasks
        ++ (if initiator then [.startStream w s.codec_negotiation] else [])
        ++ [.detachOnClose w] }
    match s3.get_weak id with
    | none => (.error .peerMissing, s3)
    | some w2 => (.ok w2, s3.notify_connected w2)

/-- `ConnectedPeers::connected` (connected_peers.rs lines 114-181).  If a
live entry exists, upgrade it and attach the channel via `receive_channel`,
returning the existing weak handle (lines 120-127); otherwise construct and
install a new Peer (lines 129-180).  `accepts` is the environment's choice
of the new session's channel-acceptance state. -/
def ConnectedPeers.connected (s : ConnectedPeers) (id : PeerId) (ch : Chan)
    (initiator : Bool) (accepts : Bool) :
    Except ConnectError Handle × ConnectedPeers :=
  match s.get_weak id with
  | some weak =>
    match s.upgrade weak with
    | none => (.error .disconnectedTransport, s)
    | some peer =>
      match peer.receive_channel ch with
      | .error e => (.error (.channelAttach e), s)
      | .ok p2 => (.ok weak, { s with connected_map := s.connected_map.updatePeer id p2 })
  | none => s.finishInstall id initiator (s.mkNewPeer id ch accepts)

/-- Decidable equality for fallible results, used by the derived instances
below. -/
instance exceptDecEq {ε α : Type} [DecidableEq ε] [DecidableEq α] :
    DecidableEq (Except ε α) := fun a b =>
  match a, b with
  | .ok x, .ok y =>
    if h : x = y then .isTrue (by rw [h]) else .isFalse (by simp [h])
  | .error x, .error y =>
    if h : x = y then .isTrue (by rw [h]) else .isFalse (by simp [h])
  | .ok _, .error _ => .isFalse (by simp)
  | .error _, .ok _ => .isFalse (by simp)

/-- Environment of one run of the initiator streaming task: the outcome of
the remote round-trips inside `collect_capabilities` and `stream_start`
(spec section 4.3: both are asynchronous Peer operations that can fail on
protocol error, disconnect, or rejection). -/
structure StreamEnv where
  discoverResult : Except PeerError (List RemoteEndpoint)
  startResult : Except PeerError Unit
deriving DecidableEq, Repr

/-- The failure points of `start_streaming` (connected_peers.rs
lines 83-95): a failed upgrade ("Disconnected"), a capability-discovery
error, "No compatible stream found", or a stream-start rejection. -/
inductive StreamError where
  | disconnected
  | discovery (e : PeerError)
  | noCompatibleStream
  | startRejected (e : PeerError)
deriving DecidableEq, Repr

/-- `ConnectedPeers::start_streaming` (connected_peers.rs lines 83-95):
upgrade the weak handle, discover the remote's capabilities, select a
compatible pairing via the captured codec negotiation, re-upgrade, and
start the chosen stream.  The remote round-trip outcomes come from `env`. -/
def ConnectedPeers.start_streaming (s : ConnectedPeers) (h : Handle)
    (negotiation : CodecNegotiation) (env : StreamEnv) :
    Except StreamError Unit :=
  match s.upgrade h with
  | none => .error .disconnected
  | some _strong =>
    match env.discoverResult with
    | .error e => .error (.discovery e)
    | .ok remote_streams =>
      match negotiation.select remote_streams with
      | none => .error .noCompatibleStream
      | some _sel =>
        match s.upgrade h with
        | none => .error .disconnected
        | some _strong2 =>
          match env.startResult with
          | .error e => .error (.startRejected e)
          | .ok _ => .ok ()

/-- Detach through a weak handle: remove the entry only if it is still the
handle's own generation (race-safe, spec section 4.4 step 4). -/
def ConnectedPeers.detachHandle (s : ConnectedPeers) (h : Handle) :
    ConnectedPeers :=
  { s with connected_map := s.connected_map.detachEntry h }

/-- Whether the `closed()` future of the peer behind `h` has resolved: true
when the peer's transport is closed, and also when the entry is already
gone (the Peer was dropped, which resolves the future). -/
def ConnectedPeers.closedResolved (s : ConnectedPeers) (h : Handle) : Bool :=
  match s.upgrade h with
  | some p => p.closed
  | none => true

/-- The operations that can act on the registry state, interleaved one at a
time (spec section 5's cooperative tasking): the public registry calls, the
environment closing a peer's transport, a listener's receiver being
dropped, and the two kinds of spawned background task running to
completion. -/
inductive Op where
  | opFound (id : PeerId) (d : ProfileDescriptor)
  | opConnected (id : PeerId) (ch : Chan) (initiator : Bool) (accepts : Bool)
  | opSetPreferredDirection (d : EndpointType)
  | opConnectedStream
  | opCloseTransport (id : PeerId)
  | opDropListener (i : Nat)
  | opPollListener (i : Nat)
  | opRunDetachTask (i : Nat)
  | opRunStartTask (i : Nat) (env : StreamEnv)

/-- The transport behind the live entry for `id` closes: the peer's
`closed()` future becomes resolved.  The entry itself stays in the map
until the detach task runs (connected_peers.rs lines 172-176). -/
def ConnectedPeers.closeTransport (s : ConnectedPeers) (id : PeerId) :
    ConnectedPeers :=
  match s.get id with
  | some p => { s with connected_map := s.connected_map.updatePeer id { p with closed := true } }
  | none => s

/-- Mark the receiver of the i-th listener as dropped. -/
def ConnectedPeers.dropListener (s : ConnectedPeers) (i : Nat) :
    ConnectedPeers :=
  { s with connected_peer_senders :=
      (s.connected_peer_senders.mapIdx (fun j snd =>
        if j == i then { snd with alive := false } else snd)) }

/-- The i-th listener's receiver polls its sequence: a delivery occupying
the guaranteed slot is consumed, appended to the received history, freeing
the slot for the next fan-out. -/
def ConnectedPeers.pollListener (s : ConnectedPeers) (i : Nat) :
    ConnectedPeers :=
  { s with connected_peer_senders :=
      (s.connected_peer_senders.mapIdx (fun j snd =>
        if j == i then
          match snd.slot with
          | some h => { snd with slot := none, received := snd.received ++ [h] }
          | none => snd
        else snd)) }

/-- Run the i-th pending task if it is a detach-on-close waiter whose
`closed()` future has resolved (connected_peers.rs lines 172-176): detach
the entry through the task's weak handle and retire the task. -/
def ConnectedPeers.runDetachTask (s : ConnectedPeers) (i : Nat) :
    ConnectedPeers :=
  match s.tasks[i]? with
  | some (.detachOnClose h) =>
    if s.closedResolved h then
      { s.detachHandle h with tasks := s.tasks.eraseIdx i }
    else s
  | _ => s

/-- Run the i-th pending task if it is an initiator streaming task
(connected_peers.rs lines 162-168): run `start_streaming` with its captured
negotiation copy; on any error, detach the entry through the task's weak
handle.  The task retires either way, and no error escapes. -/
def ConnectedPeers.runStartTask (s : ConnectedPeers) (i : Nat)
    (env : StreamEnv) : ConnectedPeers :=
  match s.tasks[i]? with
  | some (.startStream h negotiation) =>
    let retired := { s with tasks := s.tasks.eraseIdx i }
    match s.start_streaming h negotiation env with
    | .error _ => retired.detachHandle h
    | .ok _ => retired
  | _ => s

/-- One interleaving step. -/
def stepOp (s : ConnectedPeers) (op : Op) : ConnectedPeers :=
  match op with
  | .opFound id d => s.found id d
  | .opConnected id ch initiator accepts => (s.connected id ch initiator accepts).2
  | .opSetPreferredDirection d => s.set_preferred_direction d
  | .opConnectedStream => s.connected_stream
  | .opCloseTransport id => s.closeTransport id
  | .opDropListener i => s.dropListener i
  | .opPollListener i => s.pollListener i
  | .opRunDetachTask i => s.runDetachTask i
  | .opRunStartTask i env => s.runStartTask i env

/-- A sequence of interleaving steps. -/
def steps (s : ConnectedPeers) (ops : List Op) : ConnectedPeers :=
  ops.foldl stepOp s

/-- Count of map entries stored under a given id. -/
def ConnectedPeers.entryCount (s : ConnectedPeers) (id : PeerId) : Nat :=
  s.connected_map.countP (fun kv => kv.1 == id)

/-- A minimal registry state: empty map, empty descriptor cache, empty
stream template, trivial negotiation preferring nothing with the sink
direction, no listeners, no pending tasks. -/
def emptyRegistry : ConnectedPeers :=
  { connected_map := []
    nextGen := 0
    descriptors := []
    streams := { endpoints := [] }
    codec_negotiation := { preferred := [], direction := .sink }
    connected_peer_senders := []
    tasks := [] }

/-- The minimal registry with one subscribed listener whose slot is
free. -/
def oneListenerRegistry : ConnectedPeers :=
  { emptyRegistry with
    connected_peer_senders :=
      [{ alive := true, slot := none, received := [] }] }

/-- A live Peer on channel 1 whose session does not accept an additional
channel. -/
def rejectingPeer : Peer :=
  { peerId := 0, channels := [1], descriptor := none
    local_streams := { endpoints := [] }, closed := false
    acceptsChannel := false }

/-- The minimal registry holding `rejectingPeer` under id 0, generation 0. -/
def rejectingRegistry : ConnectedPeers :=
  { emptyRegistry with
    connected_map := [(0, { gen := 0, peer := rejectingPeer })]
    nextGen := 1 }

/-- A live, channel-accepting Peer on channel 1. -/
def livePeer : Peer :=
  { peerId := 0, channels := [1], descriptor := none
    local_streams := { endpoints := [] }, closed := false
    acceptsChannel := true }

/-- The minimal registry holding `livePeer` under id 0, generation 0. -/
def liveRegistry : ConnectedPeers :=
  { emptyRegistry with
    connected_map := [(0, { gen := 0, peer := livePeer })]
    nextGen := 1 }

/-- `livePeer` after its transport has closed. -/
def closedPeer : Peer :=
  { livePeer with closed := true }

/-- The minimal registry holding `closedPeer` under id 0, generation 0, with
the pending detach-on-close task for it. -/
def closedRegistry : ConnectedPeers :=
  { emptyRegistry with
    connected_map := [(0, { gen := 0, peer := closedPeer })]
    nextGen := 1
    tasks := [.detachOnClose { id := 0, gen := 0 }] }

/-- The registry's map invariant: at most one entry per PeerId (the map is
keyed like a HashMap) and every installed generation is below the fresh
generation counter, so a detached generation can never be reissued. -/
def ConnectedPeers.WF (s : ConnectedPeers) : Prop :=
  (s.connected_map.map Prod.fst).Nodup ∧
  ∀ kv ∈ s.connected_map, kv.2.gen < s.nextGen

instance (s : ConnectedPeers) : Decidable s.WF := by
  unfold ConnectedPeers.WF
  infer_instance

/-- Fan-out only touches the listener senders. -/
theorem notify_connected_map_eq (s : ConnectedPeers) (h : Handle) :
    (s.notify_connected h).connected_map = s.connected_map := rfl

/-- Fan-out only touches the listener senders. -/
theorem notify_connected_nextGen_eq (s : ConnectedPeers) (h : Handle) :
    (s.notify_connected h).nextGen = s.nextGen := rfl

/-- Fan-out only touches the listener senders. -/
theorem notify_connected_tasks_eq (s : ConnectedPeers) (h : Handle) :
    (s.notify_connected h).tasks = s.tasks := rfl

/-- Looking up the key just consed onto the map finds the new entry. -/
theorem lookupEntry_cons_self (m : PeerMap) (id : PeerId) (e : Entry) :
    PeerMap.lookupEntry ((id, e) :: m) id = some e := by
  simp [PeerMap.lookupEntry, List.find?_cons_of_pos]

/-- Consing an entry for a different key does not affect a lookup. -/
theorem lookupEntry_cons_ne (m : PeerMap) (id k : PeerId) (e : Entry)
    (hne : k ≠ id) : PeerMap.lookupEntry ((id, e) :: m) k = m.lookupEntry k := by
  simp [PeerMap.lookupEntry, List.find?_cons_of_neg, Ne.symm hne]

/-- Searching by key commutes with mapping a key-preserving function over
the entries. -/
theorem find?_map_fst (m : PeerMap) (f : PeerId × Entry → PeerId × Entry)
    (hf : ∀ kv, (f kv).1 = kv.1) (k : PeerId) :
    (m.map f).find? (fun kv => kv.1 == k) =
      (m.find? (fun kv => kv.1 == k)).map f := by
  induction m with
  | nil => rfl
  | cons kv rest ih =>
    by_cases hkv : kv.1 = k
    · simp [List.find?_cons, hf kv, hkv]
    · simp [List.find?_cons, hf kv, hkv, ih]

/-- Updating the Peer stored for an id preserves every entry's key and
generation; only the looked-up Peer value can change. -/
theorem lookupEntry_updatePeer (m : PeerMap) (id : PeerId) (p : Peer)
    (k : PeerId) :
    (m.updatePeer id p).lookupEntry k =
      (m.lookupEntry k).map
        (fun e => if k = id then { gen := e.gen, peer := p } else e) := by
  unfold PeerMap.updatePeer PeerMap.lookupEntry
  rw [find?_map_fst]
  · cases hfind : m.find? (fun kv => kv.1 == k) with
    | none => simp
    | some kv =>
      have hk : kv.1 = k := by
        have := List.find?_some hfind
        simpa using this
      subst hk
      by_cases hid : kv.1 = id <;> simp [hid]
  · intro kv
    by_cases hid : kv.1 = id <;> simp [hid]

/-- Updating a Peer in place does not change the keys of the map. -/
theorem keys_updatePeer (m : PeerMap) (id : PeerId) (p : Peer) :
    (m.updatePeer id p).map Prod.fst = m.map Prod.fst := by
  induction m with
  | nil => rfl
  | cons kv rest ih =>
    by_cases hid : kv.1 = id <;>
      simp [PeerMap.updatePeer, hid] at * <;> exact ih

/-- Detaching an entry for one id leaves lookups of any other id alone. -/
theorem lookupEntry_detach_ne (m : PeerMap) (h : Handle) (k : PeerId)
    (hne : k ≠ h.id) :
    (m.detachEntry h).lookupEntry k = m.lookupEntry k := by
  induction m with
  | nil => rfl
  | cons kv rest ih =>
    by_cases hk : kv.1 = k
    · subst hk
      simp [PeerMap.detachEntry, PeerMap.lookupEntry, List.find?_cons, hne]
    · by_cases hd : kv.1 == h.id && kv.2.gen == h.gen
      · simpa [PeerMap.detachEntry, PeerMap.lookupEntry, hd, hk,
          List.find?_cons] using ih
      · simpa [PeerMap.detachEntry, PeerMap.lookupEntry, hd, hk,
          List.find?_cons] using ih

/-- A lookup that fails means no entry in the map carries that key. -/
theorem lookupEntry_none_iff (m : PeerMap) (k : PeerId) :
    m.lookupEntry k = none ↔ ∀ kv ∈ m, kv.1 ≠ k := by
  simp [PeerMap.lookupEntry, List.find?_eq_none]

/-- With unique keys, detaching through a handle resolves the lookup of the
handle's own id: the entry disappears when it carried the handle's
generation and survives unchanged otherwise. -/
theorem lookupEntry_detach_self (m : PeerMap) (h : Handle)
    (hnd : (m.map Prod.fst).Nodup) :
    (m.detachEntry h).lookupEntry h.id =
      match m.lookupEntry h.id with
      | some e => if e.gen = h.gen then none else some e
      | none => none := by
  induction m with
  | nil => rfl
  | cons kv rest ih =>
    simp only [List.map_cons, List.nodup_cons] at hnd
    obtain ⟨hout, hrest⟩ := hnd
    by_cases hk : kv.1 = h.id
    · have hnone : ∀ kv2 ∈ rest, kv2.1 ≠ h.id := by
        intro kv2 hmem heq
        refine hout ?mem
        rw [hk, ← heq]
        exact List.mem_map_of_mem Prod.fst hmem
      by_cases hg : kv.2.gen = h.gen
      · have hdrop : PeerMap.detachEntry (kv :: rest) h =
            PeerMap.detachEntry rest h := by
          simp [PeerMap.detachEntry, hk, hg]
        have hgoal :
            PeerMap.lookupEntry (PeerMap.detachEntry (kv :: rest) h) h.id
              = none := by
          rw [hdrop, lookupEntry_none_iff]
          intro kv2 hmem heq
          exact hnone kv2 (List.mem_of_mem_filter hmem) heq
        rw [hgoal]
        simp [PeerMap.lookupEntry, List.find?_cons, hk, hg]
      · have hkeep : PeerMap.detachEntry (kv :: rest) h =
            kv :: PeerMap.detachEntry rest h := by
          simp [PeerMap.detachEntry, hg]
        rw [hkeep]
        simp [PeerMap.lookupEntry, List.find?_cons, hk, hg]
    · have hkeep : PeerMap.detachEntry (kv :: rest) h =
          kv :: PeerMap.detachEntry rest h := by
        simp [PeerMap.detachEntry, hk]
      rw [hkeep]
      have hfind : PeerMap.lookupEntry (kv :: PeerMap.detachEntry rest h) h.id
          = PeerMap.lookupEntry (PeerMap.detachEntry rest h) h.id := by
        simp [PeerMap.lookupEntry, List.find?_cons, hk]
      rw [hfind, ih hrest]
      simp [PeerMap.lookupEntry, List.find?_cons, hk]

/-- Detaching never resurrects a handle: with unique keys, if a handle does
not upgrade then it still does not upgrade after any detach. -/
theorem lookupEntry_detach_dead (m : PeerMap) (h h0 : Handle)
    (hnd : (m.map Prod.fst).Nodup) :
    ∀ e2, (m.detachEntry h).lookupEntry h0.id = some e2 →
      ∃ e, m.lookupEntry h0.id = some e ∧ e2.gen = e.gen := by
  intro e2 hafter
  by_cases hid : h0.id = h.id
  · rw [hid, lookupEntry_detach_self m h hnd] at hafter
    cases hbefore : m.lookupEntry h.id with
    | none => rw [hbefore] at hafter; cases hafter
    | some e =>
      rw [hbefore] at hafter
      by_cases hg : e.gen = h.gen
      · simp [hg] at hafter
      · simp [hg] at hafter
        exact ⟨e, by rw [hid, hbefore], by rw [hafter]⟩
  · rw [lookupEntry_detach_ne m h h0.id hid] at hafter
    exact ⟨e2, hafter, rfl⟩

/-- Unfolding `connected` on the new-entry path (connected_peers.rs
lines 129-180): with no live entry for the id, the call constructs the new
Peer, installs it under the fresh generation, spawns the initiator task (if
any) and the detach-on-close task, fans the new weak handle out, and
returns it. -/
theorem connected_of_lookup_none (s : ConnectedPeers) (id : PeerId)
    (ch : Chan) (initiator accepts : Bool)
    (h0 : s.connected_map.lookupEntry id = none) :
    s.connected id ch initiator accepts =
      (.ok { id := id, gen := s.nextGen },
        ConnectedPeers.notify_connected
          { s with
            connected_map :=
              (id, { gen := s.nextGen, peer := s.mkNewPeer id ch accepts })
                :: s.connected_map
            nextGen := s.nextGen + 1
            tasks := s.tasks
              ++ (if initiator then
                    [.startStream { id := id, gen := s.nextGen }
                      s.codec_negotiation]
                  else [])
              ++ [.detachOnClose { id := id, gen := s.nextGen }] }
          { id := id, gen := s.nextGen }) := by
  simp [ConnectedPeers.connected, ConnectedPeers.get_weak,
    ConnectedPeers.finishInstall, ConnectedPeers.tryInsert, h0,
    lookupEntry_cons_self]

/-- Unfolding `connected` on the successful merge path (connected_peers.rs
lines 120-126): the channel is attached to the live entry's Peer and the
existing weak handle is returned; no notification happens. -/
theorem connected_merge_ok (s : ConnectedPeers) (id : PeerId) (ch : Chan)
    (initiator accepts : Bool) (e : Entry) (p2 : Peer)
    (hl : s.connected_map.lookupEntry id = some e)
    (hr : e.peer.receive_channel ch = .ok p2) :
    s.connected id ch initiator accepts =
      (.ok { id := id, gen := e.gen },
        { s with connected_map := s.connected_map.updatePeer id p2 }) := by
  simp [ConnectedPeers.connected, ConnectedPeers.get_weak,
    ConnectedPeers.upgrade, hl, hr]

/-- Unfolding `connected` on the failed merge path (connected_peers.rs
lines 122-125): the `receive_channel` error is propagated and the state is
untouched. -/
theorem connected_merge_err (s : ConnectedPeers) (id : PeerId) (ch : Chan)
    (initiator accepts : Bool) (e : Entry) (pe : PeerError)
    (hl : s.connected_map.lookupEntry id = some e)
    (hr : e.peer.receive_channel ch = .error pe) :
    s.connected id ch initiator accepts = (.error (.channelAttach pe), s) := by
  simp [ConnectedPeers.connected, ConnectedPeers.get_weak,
    ConnectedPeers.upgrade, hl, hr]

/-- A handle fails to upgrade exactly when the current entry for its id, if
any, carries a different generation. -/
theorem upgrade_eq_none_iff (s : ConnectedPeers) (h : Handle) :
    s.upgrade h = none ↔
      ∀ e, s.connected_map.lookupEntry h.id = some e → e.gen ≠ h.gen := by
  unfold ConnectedPeers.upgrade
  cases hl : s.connected_map.lookupEntry h.id with
  | none => simp
  | some e =>
    by_cases hg : e.gen = h.gen <;> simp [hl, hg]

/-- A handle whose generation matches the current entry upgrades to the
stored Peer. -/
theorem upgrade_of_lookup (s : ConnectedPeers) (h : Handle) (e : Entry)
    (hl : s.connected_map.lookupEntry h.id = some e) (hg : e.gen = h.gen) :
    s.upgrade h = some e.peer := by
  unfold ConnectedPeers.upgrade
  simp [hl, hg]

/-- In-place Peer updates preserve the map invariant. -/
theorem wf_updatePeer (s s' : ConnectedPeers) (id : PeerId) (p : Peer)
    (hm : s'.connected_map = s.connected_map.updatePeer id p)
    (hn : s'.nextGen = s.nextGen) (hwf : s.WF) : s'.WF := by
  obtain ⟨hnd, hg⟩ := hwf
  constructor
  · rw [hm, keys_updatePeer]
    exact hnd
  · intro kv hmem
    rw [hm] at hmem
    unfold PeerMap.updatePeer at hmem
    obtain ⟨kv0, h0, rfl⟩ := List.mem_map.mp hmem
    rw [hn]
    by_cases hid : kv0.1 = id <;> simp [hid] <;> exact hg kv0 h0

/-- In-place Peer updates never resurrect a dead handle. -/
theorem dead_updatePeer (s s' : ConnectedPeers) (id : PeerId) (p : Peer)
    (hm : s'.connected_map = s.connected_map.updatePeer id p)
    (hdead : s.upgrade h = none) : s'.upgrade h = none := by
  rw [upgrade_eq_none_iff] at hdead ⊢
  intro e2 hl2
  rw [hm, lookupEntry_updatePeer] at hl2
  cases hl : s.connected_map.lookupEntry h.id with
  | none => rw [hl] at hl2; cases hl2
  | some e =>
    rw [hl] at hl2
    have hgen : e2.gen = e.gen := by
      by_cases hid : h.id = id <;> simp [hid] at hl2 <;>
        rw [← hl2]
    rw [hgen]
    exact hdead e hl

/-- Installing a fresh entry under the fresh generation preserves the map
invariant. -/
theorem wf_cons (s s' : ConnectedPeers) (id : PeerId) (p : Peer)
    (h0 : s.connected_map.lookupEntry id = none)
    (hm : s'.connected_map =
      (id, { gen := s.nextGen, peer := p }) :: s.connected_map)
    (hn : s'.nextGen = s.nextGen + 1) (hwf : s.WF) : s'.WF := by
  obtain ⟨hnd, hg⟩ := hwf
  constructor
  · rw [hm]
    simp only [List.map_cons, List.nodup_cons]
    refine ⟨?notmem, hnd⟩
    intro hmem
    obtain ⟨kv, hkv, hfst⟩ := List.mem_map.mp hmem
    rw [lookupEntry_none_iff] at h0
    exact h0 kv hkv hfst
  · intro kv hmem
    rw [hm] at hmem
    rw [hn]
    rcases List.mem_cons.mp hmem with hhd | htl
    · rw [hhd]
      exact Nat.lt_succ_self _
    · exact Nat.lt_succ_of_lt (hg kv htl)

/-- Installing a fresh entry under the fresh generation never resurrects a
dead handle whose generation is already in the past. -/
theorem dead_cons (s s' : ConnectedPeers) (id : PeerId) (p : Peer)
    (hm : s'.connected_map =
      (id, { gen := s.nextGen, peer := p }) :: s.connected_map)
    (hdead : s.upgrade h = none) (hgen : h.gen < s.nextGen) :
    s'.upgrade h = none := by
  rw [upgrade_eq_none_iff] at hdead ⊢
  intro e2 hl2
  rw [hm] at hl2
  by_cases hid : h.id = id
  · rw [hid, lookupEntry_cons_self] at hl2
    cases hl2
    intro hcontr
    exact Nat.lt_irrefl _ (hcontr ▸ hgen)
  · rw [lookupEntry_cons_ne _ _ _ _ hid] at hl2
    exact hdead e2 hl2

/-- Detaching preserves the map invariant. -/
theorem wf_detach (s s' : ConnectedPeers) (hd : Handle)
    (hm : s'.connected_map = s.connected_map.detachEntry hd)
    (hn : s'.nextGen = s.nextGen) (hwf : s.WF) : s'.WF := by
  obtain ⟨hnd, hg⟩ := hwf
  constructor
  · rw [hm]
    exact hnd.sublist (List.Sublist.map Prod.fst (List.filter_sublist _))
  · intro kv hmem
    rw [hm] at hmem
    rw [hn]
    exact hg kv (List.mem_of_mem_filter hmem)

/-- Detaching never resurrects a dead handle (given unique keys). -/
theorem dead_detach (s s' : ConnectedPeers) (hd : Handle)
    (hm : s'.connected_map = s.connected_map.detachEntry hd)
    (hnd : (s.connected_map.map Prod.fst).Nodup)
    (hdead : s.upgrade h = none) : s'.upgrade h = none := by
  rw [upgrade_eq_none_iff] at hdead ⊢
  intro e2 hl2
  rw [hm] at hl2
  obtain ⟨e, hl, hgen⟩ := lookupEntry_detach_dead _ hd h hnd e2 hl2
  rw [hgen]
  exact hdead e hl

/-- `found` either leaves the peer map alone or updates one Peer in place;
it never changes the generation counter or the pending tasks. -/
theorem found_shape (s : ConnectedPeers) (id : PeerId)
    (desc : ProfileDescriptor) :
    ((s.found id desc).connected_map = s.connected_map ∨
      ∃ p, (s.found id desc).connected_map = s.connected_map.updatePeer id p) ∧
    (s.found id desc).nextGen = s.nextGen ∧
    (s.found id desc).tasks = s.tasks := by
  cases hget : ConnectedPeers.get
      { s with descriptors := insertDescriptor s.descriptors id desc } id with
  | none =>
    refine ⟨Or.inl ?_, ?_, ?_⟩ <;> simp [ConnectedPeers.found, hget]
  | some p =>
    refine ⟨Or.inr ⟨p.set_descriptor desc, ?_⟩, ?_, ?_⟩ <;>
      simp [ConnectedPeers.found, hget]

/-- Closing a transport either leaves the peer map alone or updates one
Peer in place; it never changes the generation counter or the tasks. -/
theorem closeTransport_shape (s : ConnectedPeers) (id : PeerId) :
    ((s.closeTransport id).connected_map = s.connected_map ∨
      ∃ p, (s.closeTransport id).connected_map =
        s.connected_map.updatePeer id p) ∧
    (s.closeTransport id).nextGen = s.nextGen ∧
    (s.closeTransport id).tasks = s.tasks := by
  cases hget : ConnectedPeers.get s id with
  | none =>
    refine ⟨Or.inl ?_, ?_, ?_⟩ <;> simp [ConnectedPeers.closeTransport, hget]
  | some p =>
    refine ⟨Or.inr ⟨{ p with closed := true }, ?_⟩, ?_, ?_⟩ <;>
      simp [ConnectedPeers.closeTransport, hget]

/-- Running a detach task either leaves the peer map alone or detaches one
entry; it never changes the generation counter. -/
theorem runDetachTask_shape (s : ConnectedPeers) (i : Nat) :
    ((s.runDetachTask i).connected_map = s.connected_map ∨
      ∃ hd, (s.runDetachTask i).connected_map =
        s.connected_map.detachEntry hd) ∧
    (s.runDetachTask i).nextGen = s.nextGen := by
  cases ht : s.tasks[i]? with
  | none =>
    refine ⟨Or.inl ?_, ?_⟩ <;> simp [ConnectedPeers.runDetachTask, ht]
  | some t =>
    cases t with
    | detachOnClose hd =>
      by_cases hc : s.closedResolved hd = true
      · refine ⟨Or.inr ⟨hd, ?_⟩, ?_⟩ <;>
          simp [ConnectedPeers.runDetachTask, ht, hc,
            ConnectedPeers.detachHandle]
      · refine ⟨Or.inl ?_, ?_⟩ <;>
          simp [ConnectedPeers.runDetachTask, ht, hc]
    | startStream hd n =>
      refine ⟨Or.inl ?_, ?_⟩ <;> simp [ConnectedPeers.runDetachTask, ht]

/-- Running a streaming task either leaves the peer map alone or detaches
one entry; it never changes the generation counter. -/
theorem runStartTask_shape (s : ConnectedPeers) (i : Nat) (env : StreamEnv) :
    ((s.runStartTask i env).connected_map = s.connected_map ∨
      ∃ hd, (s.runStartTask i env).connected_map =
        s.connected_map.detachEntry hd) ∧
    (s.runStartTask i env).nextGen = s.nextGen := by
  cases ht : s.tasks[i]? with
  | none =>
    refine ⟨Or.inl ?_, ?_⟩ <;> simp [ConnectedPeers.runStartTask, ht]
  | some t =>
    cases t with
    | detachOnClose hd =>
      refine ⟨Or.inl ?_, ?_⟩ <;> simp [ConnectedPeers.runStartTask, ht]
    | startStream hd n =>
      cases hr : s.start_streaming hd n env with
      | error e =>
        refine ⟨Or.inr ⟨hd, ?_⟩, ?_⟩ <;>
          simp [ConnectedPeers.runStartTask, ht, hr,
            ConnectedPeers.detachHandle]
      | ok u =>
        refine ⟨Or.inl ?_, ?_⟩ <;> simp [ConnectedPeers.runStartTask, ht, hr]

/-- Every interleaving step preserves the map invariant. -/
theorem wf_stepOp (s : ConnectedPeers) (op : Op) (hwf : s.WF) :
    (stepOp s op).WF := by
  cases op with
  | opFound id d =>
    obtain ⟨hshape, hn, -⟩ := found_shape s id d
    rcases hshape with hsame | ⟨p, hupd⟩
    · exact ⟨hsame ▸ hwf.1, fun kv hmem => hn ▸ hwf.2 kv (hsame ▸ hmem)⟩
    · exact wf_updatePeer s _ id p hupd hn hwf
  | opConnected id ch initiator accepts =>
    show ((s.connected id ch initiator accepts).2).WF
    cases hl : s.connected_map.lookupEntry id with
    | none =>
      rw [connected_of_lookup_none s id ch initiator accepts hl]
      exact wf_cons s _ id (s.mkNewPeer id ch accepts) hl rfl rfl hwf
    | some e =>
      cases hr : e.peer.receive_channel ch with
      | error pe => rw [connected_merge_err s id ch initiator accepts e pe hl hr]; exact hwf
      | ok p2 =>
        rw [connected_merge_ok s id ch initiator accepts e p2 hl hr]
        exact wf_updatePeer s _ id p2 rfl rfl hwf
  | opSetPreferredDirection d => exact hwf
  | opConnectedStream => exact hwf
  | opCloseTransport id =>
    obtain ⟨hshape, hn, -⟩ := closeTransport_shape s id
    rcases hshape with hsame | ⟨p, hupd⟩
    · exact ⟨hsame ▸ hwf.1, fun kv hmem => hn ▸ hwf.2 kv (hsame ▸ hmem)⟩
    · exact wf_updatePeer s _ id p hupd hn hwf
  | opDropListener i => exact ⟨hwf.1, hwf.2⟩
  | opPollListener i => exact ⟨hwf.1, hwf.2⟩
  | opRunDetachTask i =>
    obtain ⟨hshape, hn⟩ := runDetachTask_shape s i
    rcases hshape with hsame | ⟨hd, hdet⟩
    · exact ⟨hsame ▸ hwf.1, fun kv hmem => hn ▸ hwf.2 kv (hsame ▸ hmem)⟩
    · exact wf_detach s _ hd hdet hn hwf
  | opRunStartTask i env =>
    obtain ⟨hshape, hn⟩ := runStartTask_shape s i env
    rcases hshape with hsame | ⟨hd, hdet⟩
    · exact ⟨hsame ▸ hwf.1, fun kv hmem => hn ▸ hwf.2 kv (hsame ▸ hmem)⟩
    · exact wf_detach s _ hd hdet hn hwf

/-- The generation counter never decreases. -/
theorem nextGen_mono (s : ConnectedPeers) (op : Op) :
    s.nextGen ≤ (stepOp s op).nextGen := by
  cases op with
  | opFound id d => exact (found_shape s id d).2.1.ge
  | opConnected id ch initiator accepts =>
    show s.nextGen ≤ ((s.connected id ch initiator accepts).2).nextGen
    cases hl : s.connected_map.lookupEntry id with
    | none =>
      rw [connected_of_lookup_none s id ch initiator accepts hl]
      exact Nat.le_succ _
    | some e =>
      cases hr : e.peer.receive_channel ch with
      | error pe =>
        rw [connected_merge_err s id ch initiator accepts e pe hl hr]
      | ok p2 =>
        rw [connected_merge_ok s id ch initiator accepts e p2 hl hr]
  | opSetPreferredDirection d => exact le_refl _
  | opConnectedStream => exact le_refl _
  | opCloseTransport id => exact (closeTransport_shape s id).2.1.ge
  | opDropListener i => exact le_refl _
  | opPollListener i => exact le_refl _
  | opRunDetachTask i => exact (runDetachTask_shape s i).2.ge
  | opRunStartTask i env => exact (runStartTask_shape s i env).2.ge

/-- Once dead, always dead, one step at a time: a handle that fails to
upgrade and whose generation is in the past keeps failing to upgrade after
any interleaving step. -/
theorem dead_stepOp (s : ConnectedPeers) (op : Op) (h : Handle)
    (hwf : s.WF) (hdead : s.upgrade h = none) (hgen : h.gen < s.nextGen) :
    (stepOp s op).upgrade h = none := by
  have hupgrade_map : ∀ s' : ConnectedPeers,
      s'.connected_map = s.connected_map → s'.upgrade h = none := by
    intro s' hm
    rw [upgrade_eq_none_iff] at hdead ⊢
    rw [hm]
    exact hdead
  cases op with
  | opFound id d =>
    rcases (found_shape s id d).1 with hsame | ⟨p, hupd⟩
    · exact hupgrade_map _ hsame
    · exact dead_updatePeer s _ id p hupd hdead
  | opConnected id ch initiator accepts =>
    show ((s.connected id ch initiator accepts).2).upgrade h = none
    cases hl : s.connected_map.lookupEntry id with
    | none =>
      rw [connected_of_lookup_none s id ch initiator accepts hl]
      exact dead_cons s _ id (s.mkNewPeer id ch accepts) rfl hdead hgen
    | some e =>
      cases hr : e.peer.receive_channel ch with
      | error pe =>
        rw [connected_merge_err s id ch initiator accepts e pe hl hr]
        exact hdead
      | ok p2 =>
        rw [connected_merge_ok s id ch initiator accepts e p2 hl hr]
        exact dead_updatePeer s _ id p2 rfl hdead
  | opSetPreferredDirection d => exact hdead
  | opConnectedStream => exact hdead
  | opCloseTransport id =>
    rcases (closeTransport_shape s id).1 with hsame | ⟨p, hupd⟩
    · exact hupgrade_map _ hsame
    · exact dead_updatePeer s _ id p hupd hdead
  | opDropListener i => exact hdead
  | opPollListener i => exact hdead
  | opRunDetachTask i =>
    rcases (runDetachTask_shape s i).1 with hsame | ⟨hd, hdet⟩
    · exact hupgrade_map _ hsame
    · exact dead_detach s _ hd hdet hwf.1 hdead
  | opRunStartTask i env =>
    rcases (runStartTask_shape s i env).1 with hsame | ⟨hd, hdet⟩
    · exact hupgrade_map _ hsame
    · exact dead_detach s _ hd hdet hwf.1 hdead

/-- Once dead, always dead, along any interleaving: the step-wise lemma
iterated over an arbitrary operation sequence. -/
theorem dead_steps (ops : List Op) : ∀ s : ConnectedPeers, ∀ h : Handle,
    s.WF → s.upgrade h = none → h.gen < s.nextGen →
    (steps s ops).upgrade h = none := by
  induction ops with
  | nil => intro s h _ hdead _; exact hdead
  | cons op rest ih =>
    intro s h hwf hdead hgen
    have hstep := dead_stepOp s op h hwf hdead hgen
    have hwf2 := wf_stepOp s op hwf
    have hgen2 : h.gen < (stepOp s op).nextGen :=
      Nat.lt_of_lt_of_le hgen (nextGen_mono s op)
    exact ih (stepOp s op) h hwf2 hstep hgen2

/-- A freshly constructed Peer starts unclosed, with the environment's
channel-acceptance choice and exactly the accepted channel attached. -/
theorem mkNewPeer_fields (s : ConnectedPeers) (id : PeerId) (ch : Chan)
    (acc : Bool) :
    (s.mkNewPeer id ch acc).closed = false ∧
    (s.mkNewPeer id ch acc).acceptsChannel = acc ∧
    (s.mkNewPeer id ch acc).channels = [ch] := by
  cases hd : lookupDescriptor s.descriptors id <;>
    simp [ConnectedPeers.mkNewPeer, hd, Peer.create, Peer.set_descriptor,
      Streams.as_new]

/-- An unclosed, channel-accepting Peer accepts an additional channel,
appending it. -/
theorem receive_channel_ok (p : Peer) (c : Chan) (hcl : p.closed = false)
    (hac : p.acceptsChannel = true) :
    p.receive_channel c = .ok { p with channels := p.channels ++ [c] } := by
  simp [Peer.receive_channel, hcl, hac]

/-- In-place Peer updates do not change how many entries carry a key. -/
theorem countP_updatePeer (m : PeerMap) (id : PeerId) (p : Peer)
    (k : PeerId) :
    (m.updatePeer id p).countP (fun kv => kv.1 == k) =
      m.countP (fun kv => kv.1 == k) := by
  induction m with
  | nil => rfl
  | cons kv rest ih =>
    simp only [PeerMap.updatePeer, List.map_cons, List.countP_cons] at *
    rw [ih]
    by_cases hid : kv.1 = id <;> simp [hid]

/-- A key that fails to look up is carried by no entry at all. -/
theorem countP_zero_of_lookup_none (m : PeerMap) (k : PeerId)
    (h : m.lookupEntry k = none) :
    m.countP (fun kv => kv.1 == k) = 0 := by
  rw [List.countP_eq_zero]
  rw [lookupEntry_none_iff] at h
  intro kv hmem
  exact fun hbeq => h kv hmem (eq_of_beq hbeq)

/-- Every generation found in the map is below the fresh counter. -/
theorem gen_lt_of_lookup (s : ConnectedPeers) (k : PeerId) (e : Entry)
    (hwf : s.WF) (hl : s.connected_map.lookupEntry k = some e) :
    e.gen < s.nextGen := by
  unfold PeerMap.lookupEntry at hl
  cases hfind : s.connected_map.find? (fun kv => kv.1 == k) with
  | none => rw [hfind] at hl; cases hl
  | some kv =>
    rw [hfind] at hl
    have hkv : kv.2 = e := by simpa using hl
    rw [← hkv]
    exact hwf.2 kv (List.mem_of_find?_eq_some hfind)

/-- C4: for every call to `connected()`, the only error the caller can
observe is a channel-attach failure — `receive_channel` rejecting the new
channel on a live entry; in every other case the call returns the weak peer
handle.  The "Disconnected connecting transport" and "Peer missing" error
arms of the source are unreachable. -/
theorem C4_only_channel_attach_errors (s : ConnectedPeers) (id : PeerId)
    (ch : Chan) (initiator accepts : Bool) :
    (∃ h, (s.connected id ch initiator accepts).1 = .ok h) ∨
    (∃ e pe, s.connected_map.lookupEntry id = some e ∧
      e.peer.receive_channel ch = .error pe ∧
      (s.connected id ch initiator accepts).1 =
        .error (.channelAttach pe)) := by
  cases hl : s.connected_map.lookupEntry id with
  | none =>
    left
    exact ⟨_, by rw [connected_of_lookup_none s id ch initiator accepts hl]⟩
  | some e =>
    cases hr : e.peer.receive_channel ch with
    | ok p2 =>
      left
      exact ⟨_, by rw [connected_merge_ok s id ch initiator accepts e p2 hl hr]⟩
    | error pe =>
      right
      exact ⟨e, pe, rfl, hr,
        by rw [connected_merge_err s id ch initiator accepts e pe hl hr]⟩

/-- C5: when a live entry exists and `receive_channel` rejects the new
channel, `connected` returns exactly that error and the state is completely
untouched — the entry stays in the map and its weak handles still
upgrade. -/
theorem C5_attach_failure_leaves_entry (s : ConnectedPeers) (id : PeerId)
    (ch : Chan) (initiator accepts : Bool) (e : Entry) (pe : PeerError)
    (hl : s.connected_map.lookupEntry id = some e)
    (hr : e.peer.receive_channel ch = .error pe) :
    s.connected id ch initiator accepts = (.error (.channelAttach pe), s) ∧
    s.upgrade { id := id, gen := e.gen } = some e.peer := by
  refine ⟨connected_merge_err s id ch initiator accepts e pe hl hr, ?_⟩
  exact upgrade_of_lookup s { id := id, gen := e.gen } e hl rfl

/-- C10: while the map entry is still present but its Peer has already
closed (the detach task has not yet run), every `connected` call for that
id fails — with the modelled "disconnected" `receive_channel` error — and
the state is untouched: no channel is attached and no fresh entry is
created. -/
theorem C10_closed_entry_rejects (s : ConnectedPeers) (id : PeerId)
    (e : Entry) (hl : s.connected_map.lookupEntry id = some e)
    (hc : e.peer.closed = true) :
    ∀ ch initiator accepts,
      s.connected id ch initiator accepts =
        (.error (.channelAttach .disconnected), s) := by
  intro ch initiator accepts
  have hr : e.peer.receive_channel ch = .error .disconnected := by
    simp [Peer.receive_channel, hc]
  exact connected_merge_err s id ch initiator accepts e .disconnected hl hr

/-- Field-level description of the state produced by `connected` on the
new-entry path. -/
theorem connected_install_spec (s : ConnectedPeers) (id : PeerId) (ch : Chan)
    (initiator accepts : Bool)
    (h0 : s.connected_map.lookupEntry id = none) :
    ∃ s1, s.connected id ch initiator accepts =
        (.ok { id := id, gen := s.nextGen }, s1) ∧
      s1.connected_map =
        (id, { gen := s.nextGen, peer := s.mkNewPeer id ch accepts })
          :: s.connected_map ∧
      s1.nextGen = s.nextGen + 1 ∧
      s1.descriptors = s.descriptors ∧
      s1.codec_negotiation = s.codec_negotiation ∧
      s1.tasks = s.tasks
        ++ (if initiator then
              [.startStream { id := id, gen := s.nextGen }
                s.codec_negotiation]
            else [])
        ++ [.detachOnClose { id := id, gen := s.nextGen }] ∧
      s1.connected_peer_senders =
        notifyLoop s.connected_peer_senders.length s.connected_peer_senders 0
          { id := id, gen := s.nextGen } := by
  refine ⟨_, connected_of_lookup_none s id ch initiator accepts h0,
    ?_, ?_, ?_, ?_, ?_, ?_⟩ <;> rfl

/-- `found` for an id with no live entry only records the descriptor in the
cache. -/
theorem found_of_lookup_none (s : ConnectedPeers) (id : PeerId)
    (desc : ProfileDescriptor)
    (h0 : s.connected_map.lookupEntry id = none) :
    s.found id desc =
      { s with descriptors := insertDescriptor s.descriptors id desc } := by
  have hget : ConnectedPeers.get
      { s with descriptors := insertDescriptor s.descriptors id desc } id
        = none := by
    simp [ConnectedPeers.get, ConnectedPeers.get_weak, h0]
  simp [ConnectedPeers.found, hget]

/-- `found` for an id with a live entry records the descriptor in the cache
and applies it to the live Peer immediately. -/
theorem found_of_lookup_some (s : ConnectedPeers) (id : PeerId)
    (desc : ProfileDescriptor) (e : Entry)
    (hl : s.connected_map.lookupEntry id = some e) :
    s.found id desc =
      { s with
        descriptors := insertDescriptor s.descriptors id desc
        connected_map :=
          s.connected_map.updatePeer id (e.peer.set_descriptor desc) } := by
  have hget : ConnectedPeers.get
      { s with descriptors := insertDescriptor s.descriptors id desc } id
        = some e.peer := by
    simp [ConnectedPeers.get, ConnectedPeers.get_weak,
      ConnectedPeers.upgrade, hl]
  simp [ConnectedPeers.found, hget]

/-- The descriptor just inserted into the cache is the one subsequently
looked up. -/
theorem lookupDescriptor_insert_self (l : List (PeerId × ProfileDescriptor))
    (id : PeerId) (d : ProfileDescriptor) :
    lookupDescriptor (insertDescriptor l id d) id = some d := by
  simp [insertDescriptor, lookupDescriptor, List.find?_cons_of_pos]

/-- A cached descriptor is applied to the Peer constructed at install
time. -/
theorem mkNewPeer_descriptor (s : ConnectedPeers) (id : PeerId) (ch : Chan)
    (acc : Bool) (d : ProfileDescriptor)
    (hd : lookupDescriptor s.descriptors id = some d) :
    (s.mkNewPeer id ch acc).descriptor = some d := by
  simp [ConnectedPeers.mkNewPeer, hd, Peer.set_descriptor]

/-- C1: with a live entry installed by a first `connected` call, a second
`connected` call for the same id with a different channel and
initiator=false merges the channel into the existing entry: the very same
weak handle is returned (so both handles upgrade to the same Peer), exactly
one entry exists for the id afterwards, and the merged Peer carries both
channels. -/
theorem C1_second_connect_merges (s : ConnectedPeers) (id : PeerId)
    (ch1 ch2 : Chan) (init1 : Bool)
    (h0 : s.connected_map.lookupEntry id = none) :
    ∃ s1 s2 p,
      s.connected id ch1 init1 true =
        (.ok { id := id, gen := s.nextGen }, s1) ∧
      s1.connected id ch2 false true =
        (.ok { id := id, gen := s.nextGen }, s2) ∧
      s2.entryCount id = 1 ∧
      s2.upgrade { id := id, gen := s.nextGen } = some p ∧
      p.channels = [ch1, ch2] := by
  obtain ⟨hcl, hac, hch⟩ := mkNewPeer_fields s id ch1 true
  obtain ⟨s1, hconn, hmap, -, -, -, -, -⟩ :=
    connected_install_spec s id ch1 init1 true h0
  have hl1 : s1.connected_map.lookupEntry id =
      some { gen := s.nextGen, peer := s.mkNewPeer id ch1 true } := by
    rw [hmap]
    exact lookupEntry_cons_self _ _ _
  have hr : (s.mkNewPeer id ch1 true).receive_channel ch2 =
      .ok { s.mkNewPeer id ch1 true with
        channels := (s.mkNewPeer id ch1 true).channels ++ [ch2] } :=
    receive_channel_ok _ ch2 hcl hac
  have h2 := connected_merge_ok s1 id ch2 false true
    { gen := s.nextGen, peer := s.mkNewPeer id ch1 true } _ hl1 hr
  refine ⟨s1, _,
    { s.mkNewPeer id ch1 true with
      channels := (s.mkNewPeer id ch1 true).channels ++ [ch2] },
    hconn, h2, ?_, ?_, ?_⟩
  · show ConnectedPeers.entryCount _ id = 1
    unfold ConnectedPeers.entryCount
    show (s1.connected_map.updatePeer id _).countP _ = 1
    rw [countP_updatePeer, hmap, List.countP_cons,
      countP_zero_of_lookup_none s.connected_map id h0]
    simp
  · refine upgrade_of_lookup _ { id := id, gen := s.nextGen }
      { gen := s.nextGen,
        peer := { s.mkNewPeer id ch1 true with
          channels := (s.mkNewPeer id ch1 true).channels ++ [ch2] } } ?_ rfl
    show (s1.connected_map.updatePeer id _).lookupEntry id = _
    rw [lookupEntry_updatePeer, hl1]
    simp
  · simp [hch]

/-- C3: with no prior entry for an id, when two creation attempts race —
both pass the liveness lookup and both construct a fresh Peer — the call
whose insert runs first wins; the loser's `try_insert` fails, its freshly
constructed Peer is discarded (the final state is exactly the winner's
state), and the loser returns the winning entry's weak handle.  Exactly one
entry exists for the id afterwards. -/
theorem C3_creation_race_single_winner (s : ConnectedPeers) (id : PeerId)
    (chA chB : Chan) (initA initB accA accB : Bool)
    (h0 : s.connected_map.lookupEntry id = none) :
    ∃ s1,
      s.connected id chA initA accA =
        (.ok { id := id, gen := s.nextGen }, s1) ∧
      s1.finishInstall id initB (s.mkNewPeer id chB accB) =
        (.ok { id := id, gen := s.nextGen }, s1) ∧
      s1.entryCount id = 1 ∧
      s1.upgrade { id := id, gen := s.nextGen } =
        some (s.mkNewPeer id chA accA) := by
  obtain ⟨s1, hconn, hmap, -, -, -, -, -⟩ :=
    connected_install_spec s id chA initA accA h0
  have hl1 : s1.connected_map.lookupEntry id =
      some { gen := s.nextGen, peer := s.mkNewPeer id chA accA } := by
    rw [hmap]
    exact lookupEntry_cons_self _ _ _
  refine ⟨s1, hconn, ?_, ?_, ?_⟩
  · simp [ConnectedPeers.finishInstall, ConnectedPeers.tryInsert,
      ConnectedPeers.get_weak, hl1]
  · unfold ConnectedPeers.entryCount
    rw [hmap, List.countP_cons,
      countP_zero_of_lookup_none s.connected_map id h0]
    simp
  · exact upgrade_of_lookup s1 { id := id, gen := s.nextGen }
      { gen := s.nextGen, peer := s.mkNewPeer id chA accA } hl1 rfl

/-- C6: a descriptor recorded via `found` before any connection is applied
to the Peer created by a subsequent `connected`, so the live peer's
descriptor equals the recorded one; and a descriptor recorded while a peer
is live is applied to that peer immediately. -/
theorem C6_descriptor_cache_applied (s : ConnectedPeers) (id : PeerId)
    (desc : ProfileDescriptor) :
    (s.connected_map.lookupEntry id = none →
      ∀ ch initiator accepts, ∃ s2 p,
        (s.found id desc).connected id ch initiator accepts =
          (.ok { id := id, gen := s.nextGen }, s2) ∧
        s2.upgrade { id := id, gen := s.nextGen } = some p ∧
        p.descriptor = some desc) ∧
    (∀ e, s.connected_map.lookupEntry id = some e →
      (s.found id desc).upgrade { id := id, gen := e.gen } =
        some (e.peer.set_descriptor desc)) := by
  constructor
  · intro h0 ch initiator accepts
    rw [found_of_lookup_none s id desc h0]
    obtain ⟨s2, hconn, hmap, -, -, -, -⟩ :=
      connected_install_spec
        { s with descriptors := insertDescriptor s.descriptors id desc }
        id ch initiator accepts h0
    refine ⟨s2,
      ConnectedPeers.mkNewPeer
        { s with descriptors := insertDescriptor s.descriptors id desc }
        id ch accepts,
      hconn, ?_, ?_⟩
    · refine upgrade_of_lookup s2 { id := id, gen := s.nextGen }
        { gen := s.nextGen,
          peer := ConnectedPeers.mkNewPeer
            { s with descriptors := insertDescriptor s.descriptors id desc }
            id ch accepts } ?_ rfl
      rw [hmap]
      exact lookupEntry_cons_self _ _ _
    · exact mkNewPeer_descriptor _ id ch accepts desc
        (lookupDescriptor_insert_self s.descriptors id desc)
  · intro e hl
    rw [found_of_lookup_some s id desc e hl]
    refine upgrade_of_lookup _ { id := id, gen := e.gen }
      { gen := e.gen, peer := e.peer.set_descriptor desc } ?_ rfl
    show (s.connected_map.updatePeer id
        (e.peer.set_descriptor desc)).lookupEntry id = _
    rw [lookupEntry_updatePeer, hl]
    simp

/-- C9: `preferred_direction` returns whatever `set_preferred_direction`
last set, and the codec-negotiation value captured by an initiator task at
`connected` time is a copy: a later `set_preferred_direction` changes the
registry's policy but leaves the captured task (and every pending task)
untouched. -/
theorem C9_direction_policy (s : ConnectedPeers) (id : PeerId) (ch : Chan)
    (accepts : Bool) (d : EndpointType)
    (h0 : s.connected_map.lookupEntry id = none) :
    (∀ t : ConnectedPeers, ∀ d2 : EndpointType,
      (t.set_preferred_direction d2).preferred_direction = d2) ∧
    ∃ s1, s.connected id ch true accepts =
        (.ok { id := id, gen := s.nextGen }, s1) ∧
      PendingTask.startStream { id := id, gen := s.nextGen }
        s.codec_negotiation ∈ s1.tasks ∧
      (s1.set_preferred_direction d).tasks = s1.tasks ∧
      (s1.set_preferred_direction d).preferred_direction = d := by
  refine ⟨fun t d2 => rfl, ?_⟩
  obtain ⟨s1, hconn, -, -, -, -, htasks, -⟩ :=
    connected_install_spec s id ch true accepts h0
  refine ⟨s1, hconn, ?_, rfl, rfl⟩
  rw [htasks]
  simp

/-- C8: a `connected` call with initiator=true that installs a new entry
returns the handle (never a negotiation error) and leaves behind the
initiator streaming task, which captured the negotiation at call time, plus
the detach-on-close task.  The streaming chain fails on a discovery error,
on an empty negotiation result, and on a start rejection; running the task
on any failing environment detaches the entry — the handle no longer
upgrades — while the task runner itself surfaces no error. -/
theorem C8_initiator_failure_detaches (s : ConnectedPeers) (id : PeerId)
    (ch : Chan) (accepts : Bool)
    (h0 : s.connected_map.lookupEntry id = none) :
    ∃ s1, s.connected id ch true accepts =
        (.ok { id := id, gen := s.nextGen }, s1) ∧
      s1.tasks = s.tasks ++
        [.startStream { id := id, gen := s.nextGen } s.codec_negotiation,
          .detachOnClose { id := id, gen := s.nextGen }] ∧
      ∀ env : StreamEnv,
        (∀ pe, env.discoverResult = .error pe →
          s1.start_streaming { id := id, gen := s.nextGen }
            s.codec_negotiation env = .error (.discovery pe)) ∧
        (∀ remotes, env.discoverResult = .ok remotes →
          s.codec_negotiation.select remotes = none →
          s1.start_streaming { id := id, gen := s.nextGen }
            s.codec_negotiation env = .error .noCompatibleStream) ∧
        (∀ remotes sel pe, env.discoverResult = .ok remotes →
          s.codec_negotiation.select remotes = some sel →
          env.startResult = .error pe →
          s1.start_streaming { id := id, gen := s.nextGen }
            s.codec_negotiation env = .error (.startRejected pe)) ∧
        (∀ err, s1.start_streaming { id := id, gen := s.nextGen }
            s.codec_negotiation env = .error err →
          (s1.runStartTask s.tasks.length env).upgrade
            { id := id, gen := s.nextGen } = none) := by
  obtain ⟨s1, hconn, hmap, -, -, -, htasks, -⟩ :=
    connected_install_spec s id ch true accepts h0
  have hl1 : s1.connected_map.lookupEntry id =
      some { gen := s.nextGen, peer := s.mkNewPeer id ch accepts } := by
    rw [hmap]
    exact lookupEntry_cons_self _ _ _
  have hup : s1.upgrade { id := id, gen := s.nextGen } =
      some (s.mkNewPeer id ch accepts) :=
    upgrade_of_lookup s1 { id := id, gen := s.nextGen }
      { gen := s.nextGen, peer := s.mkNewPeer id ch accepts } hl1 rfl
  have htasks2 : s1.tasks = s.tasks ++
      [.startStream { id := id, gen := s.nextGen } s.codec_negotiation,
        .detachOnClose { id := id, gen := s.nextGen }] := by
    rw [htasks]
    simp
  refine ⟨s1, hconn, htasks2, ?_⟩
  intro env
  refine ⟨?_, ?_, ?_, ?_⟩
  · intro pe hdisc
    simp [ConnectedPeers.start_streaming, hup, hdisc]
  · intro remotes hdisc hsel
    simp [ConnectedPeers.start_streaming, hup, hdisc, hsel]
  · intro remotes sel pe hdisc hsel hstart
    simp [ConnectedPeers.start_streaming, hup, hdisc, hsel, hstart]
  · intro err herr
    have hidx : s1.tasks[s.tasks.length]? =
        some (.startStream { id := id, gen := s.nextGen }
          s.codec_negotiation) := by
      rw [htasks2, List.getElem?_append_right (Nat.le_refl _)]
      simp
    have hrun : s1.runStartTask s.tasks.length env =
        ConnectedPeers.detachHandle
          { s1 with tasks := s1.tasks.eraseIdx s.tasks.length }
          { id := id, gen := s.nextGen } := by
      simp [ConnectedPeers.runStartTask, hidx, herr]
    rw [hrun]
    have hnone : (s1.connected_map.detachEntry
        { id := id, gen := s.nextGen }).lookupEntry id = none := by
      rw [lookupEntry_none_iff]
      intro kv hmem heq
      have hmem2 := List.mem_of_mem_filter hmem
      have hpred := List.of_mem_filter hmem
      rw [hmap] at hmem2
      rcases List.mem_cons.mp hmem2 with hhd | htl
      · rw [hhd] at hpred
        simp at hpred
      · rw [lookupEntry_none_iff] at h0
        exact h0 kv htl heq
    simp [ConnectedPeers.upgrade, ConnectedPeers.detachHandle, hnone]

/-- C7: once the Peer behind an entry has closed and the detach-on-close
task runs, the entry is removed from the registry, and the entry's weak
handle fails to upgrade in that state and in every state reachable by any
further sequence of registry calls and background tasks — it never becomes
resolvable again. -/
theorem C7_detach_is_permanent (s : ConnectedPeers) (i : Nat) (h : Handle)
    (p : Peer) (hwf : s.WF)
    (hl : s.connected_map.lookupEntry h.id =
      some { gen := h.gen, peer := p })
    (hp : p.closed = true)
    (ht : s.tasks[i]? = some (.detachOnClose h)) :
    (s.runDetachTask i).connected_map.lookupEntry h.id = none ∧
    ∀ ops : List Op, (steps (s.runDetachTask i) ops).upgrade h = none := by
  have hup : s.upgrade h = some p :=
    upgrade_of_lookup s h { gen := h.gen, peer := p } hl rfl
  have hcr : s.closedResolved h = true := by
    simp [ConnectedPeers.closedResolved, hup, hp]
  have hrun : s.runDetachTask i =
      { s.detachHandle h with tasks := s.tasks.eraseIdx i } := by
    simp [ConnectedPeers.runDetachTask, ht, hcr]
  have hnone : (s.runDetachTask i).connected_map.lookupEntry h.id = none := by
    rw [hrun]
    show (s.connected_map.detachEntry h).lookupEntry h.id = none
    rw [lookupEntry_detach_self s.connected_map h hwf.1, hl]
    simp
  refine ⟨hnone, ?_⟩
  intro ops
  have hdead : (s.runDetachTask i).upgrade h = none := by
    simp [ConnectedPeers.upgrade, hnone]
  have hwf1 : (s.runDetachTask i).WF := wf_stepOp s (.opRunDetachTask i) hwf
  have hgen : h.gen < (s.runDetachTask i).nextGen := by
    rw [(runDetachTask_shape s i).2]
    exact gen_lt_of_lookup s h.id { gen := h.gen, peer := p } hwf hl
  exact dead_steps ops (s.runDetachTask i) h hwf1 hdead hgen

/-- The element sitting right after a prefix. -/
theorem get_append_length (pre : List Sender) (a : Sender)
    (rest : List Sender)
    (hlt : pre.length < (pre ++ a :: rest).length) :
    (pre ++ a :: rest).get ⟨pre.length, hlt⟩ = a := by
  induction pre with
  | nil => rfl
  | cons p ps ih => exact ih (by simp)

/-- Setting the position right after a prefix replaces the head of the
suffix. -/
theorem set_append_length (pre : List Sender) (a b : Sender)
    (rest : List Sender) :
    (pre ++ a :: rest).set pre.length b = pre ++ b :: rest := by
  induction pre with
  | nil => rfl
  | cons p ps ih => exact congrArg (List.cons p) ih

/-- The last element lives in the suffix. -/
theorem getLast?_append_cons (pre : List Sender) (x : Sender)
    (l : List Sender) :
    (pre ++ x :: l).getLast? = (x :: l).getLast? := by
  induction pre with
  | nil => rfl
  | cons p ps ih =>
    cases hps : ps ++ x :: l with
    | nil => simp at hps
    | cons q qs =>
      calc ((p :: ps) ++ x :: l).getLast? = (p :: q :: qs).getLast? := by
              rw [List.cons_append, hps]
        _ = (q :: qs).getLast? := List.getLast?_cons_cons
        _ = (ps ++ x :: l).getLast? := by rw [hps]
        _ = (x :: l).getLast? := ih

/-- Dropping the last element of a list whose suffix has at least two
elements keeps the whole prefix and the suffix head. -/
theorem dropLast_append_cons_cons (pre : List Sender) (x y : Sender)
    (l : List Sender) :
    (pre ++ x :: y :: l).dropLast = pre ++ x :: (y :: l).dropLast := by
  induction pre with
  | nil => exact List.dropLast_cons₂
  | cons p ps ih =>
    cases hps : ps ++ x :: y :: l with
    | nil => simp at hps
    | cons q qs =>
      calc ((p :: ps) ++ x :: y :: l).dropLast = (p :: q :: qs).dropLast := by
              rw [List.cons_append, hps]
        _ = p :: (q :: qs).dropLast := List.dropLast_cons₂
        _ = p :: (ps ++ x :: y :: l).dropLast := by rw [hps]
        _ = p :: (ps ++ x :: (y :: l).dropLast) := by rw [ih]
        _ = (p :: ps) ++ x :: (y :: l).dropLast := rfl

/-- The fan-out loop delivers to exactly the senders that accept, preserving
the already-processed prefix: up to permutation (the source prunes with
`swap_remove`, which reorders), the loop run from position `pre.length`
yields the prefix plus the suffix filtered through `try_send`. -/
theorem notifyLoop_perm (h : Handle) :
    ∀ fuel (pre suf : List Sender), suf.length ≤ fuel →
      (notifyLoop fuel (pre ++ suf) pre.length h).Perm
        (pre ++ suf.filterMap (fun snd => snd.trySend h)) := by
  intro fuel
  induction fuel with
  | zero =>
    intro pre suf hlen
    have hnil : suf = [] := List.eq_nil_of_length_eq_zero (Nat.le_zero.mp hlen)
    subst hnil
    simp [notifyLoop]
  | succ fuel ih =>
    intro pre suf hlen
    cases suf with
    | nil =>
      have hnlt : ¬ pre.length < (pre ++ ([] : List Sender)).length := by simp
      rw [notifyLoop, dif_neg hnlt]
      simp
    | cons a rest =>
      have hlt : pre.length < (pre ++ a :: rest).length := by simp
      rw [notifyLoop, dif_pos hlt, get_append_length pre a rest hlt]
      cases hts : a.trySend h with
      | some a2 =>
        show (notifyLoop fuel ((pre ++ a :: rest).set pre.length a2)
            (pre.length + 1) h).Perm
          (pre ++ List.filterMap (fun snd => snd.trySend h) (a :: rest))
        rw [set_append_length]
        have hlen2 : rest.length ≤ fuel := by
          simpa using Nat.le_of_succ_le_succ (by simpa using hlen)
        simpa [List.filterMap_cons, hts] using ih (pre ++ [a2]) rest hlen2
      | none =>
        show (notifyLoop fuel (swapRemove (pre ++ a :: rest) pre.length)
            pre.length h).Perm
          (pre ++ List.filterMap (fun snd => snd.trySend h) (a :: rest))
        cases rest with
        | nil =>
          have hswap : swapRemove (pre ++ [a]) pre.length = pre := by
            rw [swapRemove, List.getLast?_concat]
            show ((pre ++ [a]).set pre.length a).dropLast = pre
            rw [show pre ++ [a] = pre ++ a :: ([] : List Sender) from rfl,
              set_append_length]
            exact List.dropLast_concat
          rw [hswap]
          simpa [List.filterMap_cons, hts] using ih pre [] (Nat.zero_le _)
        | cons b rest2 =>
          have hne : b :: rest2 ≠ ([] : List Sender) := List.cons_ne_nil _ _
          have hlast : (pre ++ a :: b :: rest2).getLast? =
              some ((b :: rest2).getLast hne) := by
            rw [getLast?_append_cons, List.getLast?_cons_cons,
              List.getLast?_eq_getLast _ hne]
          have hswap : swapRemove (pre ++ a :: b :: rest2) pre.length =
              pre ++ (b :: rest2).getLast hne :: (b :: rest2).dropLast := by
            rw [swapRemove, hlast]
            show ((pre ++ a :: b :: rest2).set pre.length
                ((b :: rest2).getLast hne)).dropLast = _
            rw [set_append_length]
            cases hbr : (b :: rest2).dropLast with
            | nil =>
              have h2 : rest2 = [] := by
                cases rest2 with
                | nil => rfl
                | cons c cs => rw [List.dropLast_cons₂] at hbr; cases hbr
              subst h2
              rw [show (b :: ([] : List Sender)).getLast hne = b from rfl]
              rw [show pre ++ [b, b] = (pre ++ [b]) ++ [b] from by simp]
              rw [List.dropLast_concat]
            | cons c cs =>
              rw [← hbr, dropLast_append_cons_cons]
          rw [hswap]
          have hlen2 :
              ((b :: rest2).getLast hne :: (b :: rest2).dropLast).length
                ≤ fuel := by
            have hdl : (b :: rest2).dropLast.length = rest2.length := by
              simp
            have hfl : rest2.length + 1 + 1 ≤ fuel + 1 := by
              simpa using hlen
            simp only [List.length_cons, hdl]
            omega
          have hmain := ih pre
            ((b :: rest2).getLast hne :: (b :: rest2).dropLast) hlen2
          refine hmain.trans ?_
          refine List.Perm.append_left pre ?_
          have heq1 : List.filterMap (fun snd => snd.trySend h)
              ((b :: rest2).getLast hne :: (b :: rest2).dropLast)
            = List.filterMap (fun snd => snd.trySend h)
                [(b :: rest2).getLast hne]
              ++ List.filterMap (fun snd => snd.trySend h)
                (b :: rest2).dropLast := by
            rw [← List.filterMap_append]
            rfl
          have heq2 : List.filterMap (fun snd => snd.trySend h)
              (b :: rest2).dropLast
            ++ List.filterMap (fun snd => snd.trySend h)
              [(b :: rest2).getLast hne]
            = List.filterMap (fun snd => snd.trySend h) (a :: b :: rest2) := by
            rw [← List.filterMap_append, List.dropLast_append_getLast hne,
              List.filterMap_cons _ a, hts]
          rw [heq1, ← heq2]
          exact List.perm_append_comm

/-- C2 (amended): every `connected` call that installs a new entry pushes
the new weak handle to every currently-subscribed listener that is ready
to receive — its receiver is alive and its zero-capacity guaranteed slot
is free — placing the handle in that listener's slot with its consumed
history intact, so the deliveries a listener consumes arrive in the order
the installs occurred; senders whose receiver is gone or whose slot is
still occupied are pruned, and neither kind of failure prevents delivery
to any other ready listener (the permutation equation describes every
sender's fate at once).  (The merge path, which attaches a channel to an
already-live entry, returns without notifying; see the counterexample.) -/
theorem C2_install_notifies_all_listeners (s : ConnectedPeers) (id : PeerId)
    (ch : Chan) (initiator accepts : Bool)
    (h0 : s.connected_map.lookupEntry id = none) :
    ∃ s1, s.connected id ch initiator accepts =
        (.ok { id := id, gen := s.nextGen }, s1) ∧
      s1.connected_peer_senders.Perm
        (s.connected_peer_senders.filterMap
          (fun snd => snd.trySend { id := id, gen := s.nextGen })) ∧
      ∀ snd ∈ s.connected_peer_senders, snd.alive = true → snd.slot = none →
        ({ alive := true, slot := some { id := id, gen := s.nextGen },
           received := snd.received } : Sender)
          ∈ s1.connected_peer_senders := by
  obtain ⟨s1, hconn, -, -, -, -, -, hsend⟩ :=
    connected_install_spec s id ch initiator accepts h0
  have hperm : s1.connected_peer_senders.Perm
      (s.connected_peer_senders.filterMap
        (fun snd => snd.trySend { id := id, gen := s.nextGen })) := by
    rw [hsend]
    simpa using notifyLoop_perm { id := id, gen := s.nextGen }
      s.connected_peer_senders.length [] s.connected_peer_senders
      (Nat.le_refl _)
  refine ⟨s1, hconn, hperm, ?_⟩
  intro snd hmem halive hslot
  rw [hperm.mem_iff, List.mem_filterMap]
  refine ⟨snd, hmem, ?_⟩
  cases snd with
  | mk alive slot received =>
    cases halive
    cases hslot
    simp [Sender.trySend]

/-- C2 (counterexample): a successful `connected` call on the merge path —
a live entry exists and the channel attaches — delivers nothing to a
currently-subscribed listener: the claim that every successful call
notifies every listener fails on the merge path, which returns before
`notify_connected` runs. -/
theorem C2_counterexample_merge_does_not_notify :
    (ConnectedPeers.connected
      { connected_map := [(0, { gen := 0, peer :=
          { peerId := 0, channels := [1], descriptor := none,
            local_streams := { endpoints := [] }, closed := false,
            acceptsChannel := true } })]
        nextGen := 1
        descriptors := []
        streams := { endpoints := [] }
        codec_negotiation := { preferred := [], direction := .sink }
        connected_peer_senders :=
          [{ alive := true, slot := none, received := [] }]
        tasks := [] } 0 2 false true).1 = .ok { id := 0, gen := 0 } ∧
    (ConnectedPeers.connected
      { connected_map := [(0, { gen := 0, peer :=
          { peerId := 0, channels := [1], descriptor := none,
            local_streams := { endpoints := [] }, closed := false,
            acceptsChannel := true } })]
        nextGen := 1
        descriptors := []
        streams := { endpoints := [] }
        codec_negotiation := { preferred := [], direction := .sink }
        connected_peer_senders :=
          [{ alive := true, slot := none, received := [] }]
        tasks := [] } 0 2 false true).2.connected_peer_senders
      = [{ alive := true, slot := none, received := [] }] :=
  ⟨rfl, rfl⟩

/-- C1 witness: the merge scenario realized from the empty registry. -/
theorem C1_witness_concrete :
    ∃ s1 s2 p,
      emptyRegistry.connected 0 1 false true =
        (.ok { id := 0, gen := 0 }, s1) ∧
      s1.connected 0 2 false true = (.ok { id := 0, gen := 0 }, s2) ∧
      s2.entryCount 0 = 1 ∧
      s2.upgrade { id := 0, gen := 0 } = some p ∧
      p.channels = [1, 2] :=
  C1_second_connect_merges emptyRegistry 0 1 2 false rfl

/-- C2 witness: an install notifies the one subscribed listener. -/
theorem C2_witness_concrete :
    ∃ s1, oneListenerRegistry.connected 0 1 false true =
        (.ok { id := 0, gen := 0 }, s1) ∧
      s1.connected_peer_senders.Perm
        (oneListenerRegistry.connected_peer_senders.filterMap
          (fun snd => snd.trySend { id := 0, gen := 0 })) ∧
      ∀ snd ∈ oneListenerRegistry.connected_peer_senders,
        snd.alive = true → snd.slot = none →
        ({ alive := true, slot := some { id := 0, gen := 0 },
           received := snd.received } : Sender)
          ∈ s1.connected_peer_senders :=
  C2_install_notifies_all_listeners oneListenerRegistry 0 1 false true rfl

/-- C3 witness: the creation race realized from the empty registry. -/
theorem C3_witness_concrete :
    ∃ s1,
      emptyRegistry.connected 0 1 false true =
        (.ok { id := 0, gen := 0 }, s1) ∧
      s1.finishInstall 0 true (emptyRegistry.mkNewPeer 0 2 true) =
        (.ok { id := 0, gen := 0 }, s1) ∧
      s1.entryCount 0 = 1 ∧
      s1.upgrade { id := 0, gen := 0 } =
        some (emptyRegistry.mkNewPeer 0 1 true) :=
  C3_creation_race_single_winner emptyRegistry 0 1 2 false true true true rfl

/-- C5 witness: the rejecting session propagates its error and nothing
changes. -/
theorem C5_witness_concrete :
    rejectingRegistry.connected 0 2 false true =
      (.error (.channelAttach .badState), rejectingRegistry) ∧
    rejectingRegistry.upgrade { id := 0, gen := 0 } = some rejectingPeer :=
  C5_attach_failure_leaves_entry rejectingRegistry 0 2 false true
    { gen := 0, peer := rejectingPeer } .badState rfl rfl

/-- C6 witness: both cache-then-connect and live-apply realized
concretely. -/
theorem C6_witness_concrete :
    (∃ s2 p,
      ((emptyRegistry.found 0
          { profileId := 3, majorVersion := 1, minorVersion := 2 }).connected
        0 1 false true) = (.ok { id := 0, gen := 0 }, s2) ∧
      s2.upgrade { id := 0, gen := 0 } = some p ∧
      p.descriptor =
        some { profileId := 3, majorVersion := 1, minorVersion := 2 }) ∧
    (liveRegistry.found 0
        { profileId := 3, majorVersion := 1, minorVersion := 2 }).upgrade
      { id := 0, gen := 0 } =
      some (livePeer.set_descriptor
        { profileId := 3, majorVersion := 1, minorVersion := 2 }) :=
  ⟨(C6_descriptor_cache_applied emptyRegistry 0
      { profileId := 3, majorVersion := 1, minorVersion := 2 }).1
        rfl 1 false true,
   (C6_descriptor_cache_applied liveRegistry 0
      { profileId := 3, majorVersion := 1, minorVersion := 2 }).2
        { gen := 0, peer := livePeer } rfl⟩

/-- C7 witness: running the pending detach task on the closed entry removes
it, and it stays unresolvable across a further reconnect for the same
id. -/
theorem C7_witness_concrete :
    (closedRegistry.runDetachTask 0).connected_map.lookupEntry 0 = none ∧
    (steps (closedRegistry.runDetachTask 0)
      [Op.opConnected 0 9 false true]).upgrade { id := 0, gen := 0 }
      = none :=
  ⟨(C7_detach_is_permanent closedRegistry 0 { id := 0, gen := 0 } closedPeer
      (by decide) rfl rfl rfl).1,
   (C7_detach_is_permanent closedRegistry 0 { id := 0, gen := 0 } closedPeer
      (by decide) rfl rfl rfl).2 [Op.opConnected 0 9 false true]⟩

/-- C8 witness: the initiator install from the empty registry. -/
theorem C8_witness_concrete :
    ∃ s1, emptyRegistry.connected 0 1 true true =
        (.ok { id := 0, gen := 0 }, s1) ∧
      s1.tasks =
        [.startStream { id := 0, gen := 0 }
          { preferred := [], direction := .sink },
          .detachOnClose { id := 0, gen := 0 }] ∧
      ∀ env : StreamEnv,
        (∀ pe, env.discoverResult = .error pe →
          s1.start_streaming { id := 0, gen := 0 }
            { preferred := [], direction := .sink } env =
            .error (.discovery pe)) ∧
        (∀ remotes, env.discoverResult = .ok remotes →
          CodecNegotiation.select
            { preferred := [], direction := .sink } remotes = none →
          s1.start_streaming { id := 0, gen := 0 }
            { preferred := [], direction := .sink } env =
            .error .noCompatibleStream) ∧
        (∀ remotes sel pe, env.discoverResult = .ok remotes →
          CodecNegotiation.select
            { preferred := [], direction := .sink } remotes = some sel →
          env.startResult = .error pe →
          s1.start_streaming { id := 0, gen := 0 }
            { preferred := [], direction := .sink } env =
            .error (.startRejected pe)) ∧
        (∀ err, s1.start_streaming { id := 0, gen := 0 }
            { preferred := [], direction := .sink } env = .error err →
          (s1.runStartTask 0 env).upgrade { id := 0, gen := 0 } = none) :=
  C8_initiator_failure_detaches emptyRegistry 0 1 true rfl

/-- C9 witness: the direction policy facts at a concrete install. -/
theorem C9_witness_concrete :
    (∀ t : ConnectedPeers, ∀ d2 : EndpointType,
      (t.set_preferred_direction d2).preferred_direction = d2) ∧
    ∃ s1, emptyRegistry.connected 0 1 true true =
        (.ok { id := 0, gen := 0 }, s1) ∧
      PendingTask.startStream { id := 0, gen := 0 }
        { preferred := [], direction := .sink } ∈ s1.tasks ∧
      (s1.set_preferred_direction .source).tasks = s1.tasks ∧
      (s1.set_preferred_direction .source).preferred_direction = .source :=
  C9_direction_policy emptyRegistry 0 1 true .source rfl

/-- C10 witness: the closed-but-not-yet-detached entry rejects a connect. -/
theorem C10_witness_concrete :
    closedRegistry.connected 0 5 true false =
      (.error (.channelAttach .disconnected), closedRegistry) :=
  C10_closed_entry_rejects closedRegistry 0
    { gen := 0, peer := closedPeer } rfl rfl 5 true false
